import Mathlib

/-!
# ShipSure — formal model of the PR risk pipeline

A shallow embedding of the ShipSure repository (pr_processor.py, main.py,
gpt_analyzer.py, test_runner.py, run_tests_daytona.py) in Lean 4, together
with theorems settling the frozen specification claims.

External collaborators (GitHub API, Daytona sandbox, OpenAI completion,
the Python `ast` and `json` libraries) are modelled as explicit oracle
parameters of type `Except String α` / plain functions, exactly at the
call sites where the source invokes them.  All pure computation of the
source (string scanning, classification, matching, merging, control flow
including try/except/finally) is translated directly.
-/

namespace ShipSure

/-! ## String helpers modelling Python primitives -/

/-- `leadsWith pat l` : `l` starts with the character sequence `pat`. -/
def leadsWith : List Char → List Char → Bool
  | [], _ => true
  | _ :: _, [] => false
  | a :: pa, b :: l => a = b && leadsWith pa l

/-- Substring occurrence on character lists: Python `pat in hay`. -/
def containsSub (hay pat : List Char) : Bool :=
  match hay with
  | [] => leadsWith pat []
  | _ :: t => leadsWith pat hay || containsSub t pat

/-- Python `pat in hay` for strings (substring test). -/
def strContains (hay pat : String) : Bool :=
  containsSub hay.data pat.data

/-- Python `s.endswith(suf)`. -/
def strEndsWith (s suf : String) : Bool :=
  leadsWith suf.data.reverse s.data.reverse

/-- Python `s.lower()` (ASCII case fold, which covers every keyword the
source compares against). -/
def pyLower (s : String) : String :=
  String.mk (s.data.map Char.toLower)

/-- The characters Python's `str.strip()` and the regex class match as
whitespace (newline included; it cannot occur in a split line). -/
def isPyWs (c : Char) : Bool :=
  c = ' ' || c = '\t' || c = '\n' || c = '\r' || c.toNat = 11 || c.toNat = 12

/-- Python `s.strip()` on a character list. -/
def pyStripL (l : List Char) : List Char :=
  ((l.dropWhile isPyWs).reverse.dropWhile isPyWs).reverse

/-- Split a character list at newline characters: Python `s.split('\n')`. -/
def splitNL : List Char → List (List Char)
  | [] => [[]]
  | c :: t =>
    if c = '\n' then [] :: splitNL t
    else
      match splitNL t with
      | [] => [[c]]
      | l :: ls => (c :: l) :: ls

/-- Split a character list at `/` (used for `file_path.split('/')`). -/
def splitSlash : List Char → List (List Char)
  | [] => [[]]
  | c :: t =>
    if c = '/' then [] :: splitSlash t
    else
      match splitSlash t with
      | [] => [[c]]
      | l :: ls => (c :: l) :: ls

/-! ## Python dict model

Python dicts are modelled as association lists where a later binding
overrides an earlier one, so `{**a, **b}` is `a ++ b` and lookup takes
the last matching binding — exactly the override semantics of `dict`
construction by unpacking. -/

/-- Lookup in the dict model: the value of the last binding of `k`. -/
def dictGet (d : List (String × String)) (k : String) : Option String :=
  d.foldl (fun acc kv => if kv.1 = k then some kv.2 else acc) none

/-- `TestRunner.setup_environment` (test_runner.py line 65 and
run_tests_daytona.py line 97): `all_files = {**code_files, **test_files}`,
the file set actually materialized in the sandbox. -/
def setup_environment_all_files (code_files test_files : List (String × String)) :
    List (String × String) :=
  code_files ++ test_files

/-! ## Review-comment classification (pr_processor.py `_extract_review_info`) -/

structure ReviewFinding where
  name : String
  type : String
  description : String
  risk : Option Int := none
deriving Repr, DecidableEq

/-- Keywords checked first: any hit classifies the comment as `danger`. -/
def dangerKeywords : List String := ["error", "bug", "security", "vulnerability"]

/-- Keywords checked second, classifying as `warning`. -/
def warningKeywords : List String := ["warning", "suggestion", "improvement"]

/-- Keywords checked third, classifying as `success`. -/
def successKeywords : List String := ["good", "approved", "passed"]

structure Comment where
  userLogin : String
  body : String
deriving Repr, DecidableEq

/-- `PRProcessor._extract_review_info` (pr_processor.py lines 123-148):
returns `none` unless the author login contains "coderabbit"; otherwise
builds a finding with the fixed name, a type classified first-match-wins
against the lower-cased body, and the body truncated to 200 characters
with an ellipsis when longer. -/
def extract_review_info (c : Comment) : Option ReviewFinding :=
  if strContains (pyLower c.userLogin) "coderabbit" = false then none
  else
    let body := c.body
    let descr :=
      if body.length > 200 then String.mk (body.data.take 200) ++ "..." else body
    let bl := pyLower body
    let ty :=
      if dangerKeywords.any (fun k => strContains bl k) then "danger"
      else if warningKeywords.any (fun k => strContains bl k) then "warning"
      else if successKeywords.any (fun k => strContains bl k) then "success"
      else "info"
    some { name := "Coderabbit Review", type := ty, description := descr }

/-! ## Import extraction (run_tests_daytona.py `parse_imports_from_test_files`)

The Python `ast` library is external: `astParse` is an oracle mapping a
file's text to `some` list of import statements found by the syntax-tree
walk, or `none` when `ast.parse` raises `SyntaxError`.  The regex
fallback `^(?:from\s+)?([a-zA-Z_][a-zA-Z0-9_]*(?:\.[a-zA-Z_][a-zA-Z0-9_]*)*)`
applied with `re.match` to each stripped line is translated literally. -/

/-- An import statement as seen by the `ast.walk` loop: an `import a, b`
node carries the dotted names of its aliases, a `from m import ...` node
carries its (possibly absent, for relative imports) module. -/
inductive ImpStmt where
  | imp (names : List String)
  | fromImp (module : Option String)
deriving Repr, DecidableEq

/-- Regex class `[a-zA-Z_]`. -/
def identStart (c : Char) : Bool := c.isAlpha || c = '_'

/-- Regex class `[a-zA-Z0-9_]`. -/
def identChar (c : Char) : Bool := c.isAlphanum || c = '_'

/-- Continuation of the dotted-identifier capture after its first
character: greedily take `[a-zA-Z0-9_]*` and then `(\.[a-zA-Z_][a-zA-Z0-9_]*)*`,
stopping (as the regex does after backtracking one dot) when a dot is not
followed by an identifier start. -/
def capAux : List Char → List Char
  | [] => []
  | c :: t =>
    if identChar c then c :: capAux t
    else if c = '.' then
      match t with
      | [] => []
      | d :: t2 => if identStart d then '.' :: d :: capAux t2 else []
    else []

/-- The capture of `([a-zA-Z_][a-zA-Z0-9_]*(?:\.[a-zA-Z_][a-zA-Z0-9_]*)*)`
anchored at the head of `l`, if any. -/
def plainCapture : List Char → Option (List Char)
  | [] => none
  | c :: t => if identStart c then some (c :: capAux t) else none

/-- The full match `^(?:from\s+)?(dotted-ident)` on an already stripped
line, with the regex backtracking on the optional `from\s+` group when
no identifier follows the whitespace. -/
def lineCapture (l : List Char) : Option (List Char) :=
  if leadsWith "from".data l then
    let r := l.drop 4
    if (r.takeWhile isPyWs).isEmpty then plainCapture l
    else
      match plainCapture (r.dropWhile isPyWs) with
      | some cap => some cap
      | none => plainCapture l
  else plainCapture l

/-- Python `module.split('.')[0]`. -/
def firstSegment (m : String) : String :=
  String.mk (m.data.takeWhile (fun c => c ≠ '.'))

/-- Whether a module path contains a dot. -/
def hasDot (m : String) : Bool := m.data.contains '.'

/-- Python `set.add`: append the element unless already present. -/
def addOnce (acc : List String) (m : String) : List String :=
  if m ∈ acc then acc else acc ++ [m]

/-- One captured module path is added to the result set: the full path,
and additionally its first segment when the path is dotted
(run_tests_daytona.py lines 325-329 / 333-335 / 343-346). -/
def addModule (acc : List String) (m : String) : List String :=
  if hasDot m then addOnce (addOnce acc m) (firstSegment m)
  else addOnce acc m

/-- The module paths captured from one test file, in traversal order:
`ast` aliases and `from`-modules on a successful parse, regex captures
of every line on `SyntaxError`; non-`.py` files contribute nothing. -/
def fileCaptured (astParse : String → Option (List ImpStmt))
    (path content : String) : List String :=
  if strEndsWith path ".py" = false then []
  else
    match astParse content with
    | some stmts =>
      stmts.foldl
        (fun a st =>
          match st with
          | .imp names => a ++ names
          | .fromImp none => a
          | .fromImp (some m) => a ++ [m]) []
    | none =>
      (splitNL content.data).filterMap
        (fun line => (lineCapture (pyStripL line)).map String.mk)

/-- `parse_imports_from_test_files` (run_tests_daytona.py lines 301-348):
fold every captured module path of every test file into the result set
via `addModule`. -/
def parse_imports_from_test_files (astParse : String → Option (List ImpStmt))
    (test_files : List (String × String)) : List String :=
  test_files.foldl
    (fun acc pc => (fileCaptured astParse pc.1 pc.2).foldl addModule acc) []

/-- All module paths captured across the test files (specification-side
projection used to state properties of the extraction). -/
def capturedModulePaths (astParse : String → Option (List ImpStmt))
    (test_files : List (String × String)) : List String :=
  (test_files.map (fun pc => fileCaptured astParse pc.1 pc.2)).flatten

/-! ## Source resolution (run_tests_daytona.py `fetch_source_files_from_imports`) -/

/-- The fixed standard-library allow-list filtered out of the imported
modules (run_tests_daytona.py lines 386-387). -/
def stdlibModules : List String :=
  ["sys", "os", "json", "base64", "subprocess", "unittest", "pytest",
   "typing", "re", "ast", "collections", "datetime", "time", "random", "math"]

/-- Root of `os.path.splitext` on a basename: split at the last dot
unless every character before it is itself a dot. -/
def splitExtRoot (b : List Char) : List Char :=
  match b.reverse.findIdx? (fun c => c = '.') with
  | none => b
  | some k =>
    let j := b.length - 1 - k
    if (b.take j).any (fun c => c ≠ '.') then b.take j else b

/-- `os.path.basename`: the part after the last `/`. -/
def baseName (p : String) : String :=
  String.mk ((splitSlash p.data).getLastD [])

/-- `file_path.replace('\\', '/').split('/')`. -/
def pathParts (p : String) : List String :=
  (splitSlash (p.data.map (fun c => if c = '\\' then '/' else c))).map String.mk

/-- A candidate file matches a module name when its basename without
extension equals it, its basename is `module.py`, or some path segment
equals it (run_tests_daytona.py lines 425 and 436, and line 470). -/
def matchesModule (p m : String) : Bool :=
  splitExtRoot (baseName p).data = (m.data) || baseName p = m ++ ".py" ||
    (pathParts p).contains m

/-- The inner `for module in filtered_modules` loop for one file: on the
first matching module, fetch the file; a fetch failure is caught and the
scan moves to the next module, a success breaks out of the loop. -/
def tryModules (fetchFile : String → Option String) (p : String) :
    List String → Option String
  | [] => none
  | m :: ms =>
    if matchesModule p m then
      match fetchFile p with
      | some c => some c
      | none => tryModules fetchFile p ms
    else tryModules fetchFile p ms

/-- One iteration of the branch-listing loop (run_tests_daytona.py lines
403-446): skip already-fetched files, test files, and non-Python files,
then try the modules in order. -/
def branchStep (existingPaths : List String) (fetchFile : String → Option String)
    (mods : List String) (acc : List (String × String)) (p : String) :
    List (String × String) :=
  if p ∈ existingPaths ∨ p ∈ acc.map Prod.fst then acc
  else if strContains (pyLower p) "test" = true ∨ strEndsWith p "_test.py" = true ∨
      strEndsWith p "tests.py" = true then acc
  else if strEndsWith p ".py" = false then acc
  else
    match tryModules fetchFile p mods with
    | some c => acc ++ [(p, c)]
    | none => acc

/-- The branch-listing resolution path: fold over the recursive tree
listing of the PR head. -/
def fetch_branch_files (tree : List String) (existingPaths : List String)
    (fetchFile : String → Option String) (mods : List String) :
    List (String × String) :=
  tree.foldl (branchStep existingPaths fetchFile mods) []

/-- One iteration of the changed-files fallback loop (run_tests_daytona.py
lines 452-477): same skips except the test check is the bare substring
test, and the three match conditions are combined in a single `if`. -/
def fallbackStep (existingPaths : List String) (fetchFile : String → Option String)
    (mods : List String) (acc : List (String × String)) (p : String) :
    List (String × String) :=
  if p ∈ existingPaths ∨ p ∈ acc.map Prod.fst then acc
  else if strContains (pyLower p) "test" = true then acc
  else if strEndsWith p ".py" = false then acc
  else
    match tryModules fetchFile p mods with
    | some c => acc ++ [(p, c)]
    | none => acc

/-- The changed-files fallback resolution path. -/
def fetch_fallback_files (changed : List String) (existingPaths : List String)
    (fetchFile : String → Option String) (mods : List String) :
    List (String × String) :=
  changed.foldl (fallbackStep existingPaths fetchFile mods) []

/-- `fetch_source_files_from_imports` (run_tests_daytona.py lines 351-479).
`srcPRInfo` models the `get_pr_info` call (uncaught on failure), `tree`
the recursive git-tree listing (falling back to `changed`, the PR's
changed-file listing, when it fails), and `fetchFile` the per-file
content fetch whose failures are caught per candidate. -/
def fetch_source_files_from_imports (srcPRInfo : Except String Unit)
    (tree : Except String (List String)) (fetchFile : String → Option String)
    (changed : Except String (List String)) (imported_modules : List String)
    (existing_files : List (String × String)) :
    Except String (List (String × String)) :=
  if imported_modules.isEmpty then .ok []
  else
    match srcPRInfo with
    | .error e => .error e
    | .ok _ =>
      let filtered := imported_modules.filter (fun m => ¬ m ∈ stdlibModules)
      if filtered.isEmpty then .ok []
      else
        match tree with
        | .ok t => .ok (fetch_branch_files t (existing_files.map Prod.fst) fetchFile filtered)
        | .error _ =>
          match changed with
          | .error e => .error e
          | .ok cfs =>
            .ok (fetch_fallback_files cfs (existing_files.map Prod.fst) fetchFile filtered)

/-! ## Command quoting (test_runner.py / run_tests_daytona.py `run_tests`)

`run_tests` escapes the caller's command with
`test_command.replace("'", "'\"'\"'")` and splices it between single
quotes into the Python snippet executed in the sandbox:
`subprocess.run('<escaped>', shell=True, ...)`.  What the sandbox runs
is therefore the value of that spliced fragment under Python
string-literal semantics (adjacent literals concatenate, backslash
escapes are resolved).  `pyLitParse` is that semantics. -/

/-- The `replace("'", "'\"'\"'")` escaping of `run_tests`
(test_runner.py line 93, run_tests_daytona.py line 150). -/
def escapeCmd (cmd : List Char) : List Char :=
  cmd.foldr
    (fun c acc =>
      (if c = '\'' then ['\'', '"', '\'', '"', '\''] else [c]) ++ acc) []

/-- The quoted fragment spliced into the execution snippet:
`'` ++ escaped command ++ `'`. -/
def quotedCommandFragment (cmd : List Char) : List Char :=
  '\'' :: (escapeCmd cmd ++ ['\''])

/-- Resolution of a single-character backslash escape in a Python string
literal; an unrecognized escape keeps the backslash, a backslash-newline
is a line continuation.  (Multi-character escapes such as `\xhh` are
resolved only through their first character; no theorem below depends on
them, since the proved statements restrict commands to backslash-free
strings and the counterexample uses `\n`.) -/
def escResolve (e : Char) : List Char :=
  if e = 'n' then ['\n'] else if e = 't' then ['\t'] else if e = 'r' then ['\r']
  else if e = '\\' then ['\\'] else if e = '\'' then ['\''] else if e = '"' then ['"']
  else if e = 'a' then [Char.ofNat 7] else if e = 'b' then [Char.ofNat 8]
  else if e = 'f' then [Char.ofNat 12] else if e = 'v' then [Char.ofNat 11]
  else if e = '\n' then []
  else ['\\', e]

/-- Parser state for a run of adjacent Python string literals. -/
inductive PyLitState where
  | outside
  | inS
  | inD
  | escS
  | escD
deriving Repr, DecidableEq

/-- Python string-literal semantics of a character run: a sequence of
adjacent `'...'` / `"..."` literals concatenates to the returned value;
an unterminated literal, a raw newline inside a literal, or a stray
character is a syntax error (`none`). -/
def pyLitParse : PyLitState → List Char → Option (List Char)
  | .outside, [] => some []
  | .outside, c :: t =>
    if c = '\'' then pyLitParse .inS t
    else if c = '"' then pyLitParse .inD t
    else none
  | .inS, [] => none
  | .inS, c :: t =>
    if c = '\'' then pyLitParse .outside t
    else if c = '\\' then pyLitParse .escS t
    else if c = '\n' ∨ c = '\r' then none
    else (pyLitParse .inS t).map (fun l => c :: l)
  | .inD, [] => none
  | .inD, c :: t =>
    if c = '"' then pyLitParse .outside t
    else if c = '\\' then pyLitParse .escD t
    else if c = '\n' ∨ c = '\r' then none
    else (pyLitParse .inD t).map (fun l => c :: l)
  | .escS, [] => none
  | .escS, e :: t => (pyLitParse .inS t).map (fun l => escResolve e ++ l)
  | .escD, [] => none
  | .escD, e :: t => (pyLitParse .inD t).map (fun l => escResolve e ++ l)

/-- The command string the sandbox shell actually receives: the spliced
fragment re-parsed under Python literal semantics. -/
def commandThatRuns (cmd : List Char) : Option (List Char) :=
  pyLitParse .outside (quotedCommandFragment cmd)

/-! ## Test command auto-detection (run_tests_daytona.py `detect_test_command`) -/

/-- `detect_test_command` (run_tests_daytona.py lines 482-504). -/
def detect_test_command (files : List (String × String)) : String :=
  let keys := files.map Prod.fst
  let test_files := keys.filter
    (fun f => strContains (pyLower f) "test" || strContains (pyLower f) "spec")
  if test_files.any (fun f => strEndsWith f ".py") then
    if test_files.any (fun f =>
        strContains ((dictGet files f).getD "") "pytest" ||
        strContains ((dictGet files f).getD "") "import pytest") then
      "python -m pytest"
    else if test_files.any (fun f =>
        strContains ((dictGet files f).getD "") "unittest" ||
        strContains ((dictGet files f).getD "") "import unittest") then
      "python -m unittest discover"
    else "python -m pytest"
  else if test_files.any (fun f => strEndsWith f ".js" || strEndsWith f ".ts") then
    "npm test"
  else if test_files.any (fun f => strEndsWith f ".java") then
    "mvn test"
  else "python -m pytest"

/-! ## Generated-test name extraction (pr_processor.py lines 210-228) -/

/-- Regex class `\w`. -/
def wordChar (c : Char) : Bool := c.isAlphanum || c = '_'

/-- One attempted match of `def\s+(test_\w+)` anchored at the head of the
list; returns the capture and the remainder after the match. -/
def matchDefAt (l : List Char) : Option (List Char × List Char) :=
  if leadsWith "def".data l then
    let r0 := l.drop 3
    let ws := r0.takeWhile isPyWs
    if ws.isEmpty then none
    else
      let r1 := r0.dropWhile isPyWs
      if leadsWith "test_".data r1 then
        let r2 := r1.drop 5
        let w := r2.takeWhile wordChar
        if w.isEmpty then none
        else some ("test_".data ++ w, r2.drop w.length)
      else none
  else none

/-- Fuel-driven left-to-right scan implementing
`re.findall(r'def\s+(test_\w+)', content)` (non-overlapping matches). -/
def findTestFuncsGo : Nat → List Char → List String
  | 0, _ => []
  | _, [] => []
  | Nat.succ f, l =>
    match matchDefAt l with
    | some (name, rest) => String.mk name :: findTestFuncsGo f rest
    | none =>
      match l with
      | [] => []
      | _ :: t => findTestFuncsGo f t

/-- `re.findall(r'def\s+(test_\w+)', content)`. -/
def findTestFuncs (content : String) : List String :=
  findTestFuncsGo content.data.length content.data

/-- Fuel-driven `str.replace(pat, repl)` for a nonempty pattern. -/
def replaceAllGo (pat repl : List Char) : Nat → List Char → List Char
  | 0, l => l
  | _, [] => []
  | Nat.succ f, l@(c :: t) =>
    if leadsWith pat l ∧ pat.isEmpty = false then
      repl ++ replaceAllGo pat repl f (l.drop pat.length)
    else c :: replaceAllGo pat repl f t

/-- Python `s.replace(pat, repl)`. -/
def pyReplace (s pat repl : String) : String :=
  String.mk (replaceAllGo pat.data repl.data s.data.length s.data)

/-- Python `str.title()`: a letter is uppercased when the previous
character is not a letter, lowercased otherwise. -/
def pyTitleGo : Bool → List Char → List Char
  | _, [] => []
  | prevAlpha, c :: t =>
    (if c.isAlpha then (if prevAlpha then c.toLower else c.toUpper) else c) ::
      pyTitleGo c.isAlpha t

/-- Python `s.title()`. -/
def pyTitle (s : String) : String := String.mk (pyTitleGo false s.data)

structure GeneratedTest where
  test : String
  reason : String
deriving Repr, DecidableEq

/-- Generated-test descriptors extracted from the test files after a run
(pr_processor.py lines 210-228): per python test file, the `test_*`
functions found by the regex, or the titled basename when none match. -/
def extractGeneratedTests (test_files : List (String × String)) :
    List GeneratedTest :=
  test_files.foldl
    (fun acc pc =>
      if strContains (pyLower pc.1) "test" = true ∧ strEndsWith pc.1 ".py" = true then
        let fns := findTestFuncs pc.2
        if fns.isEmpty then
          acc ++ [{ test := pyTitle (pyReplace (pyReplace (baseName pc.1) "_" " ") ".py" ""),
                    reason := "Generated by Coderabbit" }]
        else
          acc ++ fns.map (fun f =>
            { test := pyTitle (pyReplace f "_" " "),
              reason := "Generated by Coderabbit based on code analysis" })
      else acc) []

/-! ## Risk scorer (gpt_analyzer.py `GPTAnalyzer`) -/

structure PRInfo where
  title : String
  htmlUrl : String := ""
  body : String := ""
deriving Repr, DecidableEq

structure TestStageResult where
  status : String
  exitCode : Option Int
  output : String
  generatedTests : List GeneratedTest
  error : Option String := none
deriving Repr, DecidableEq

/-- A partial finding inside the scorer's `reviewUpdates` mapping; absent
keys leave the corresponding field of the finding unchanged under
Python's `dict.update`. -/
structure ReviewUpdate where
  risk : Option Int := none
  type : Option String := none
  description : Option String := none
deriving Repr, DecidableEq

/-- The structured scorer response, with the defaults `process_pr`
applies via `.get` for absent keys. -/
structure Analysis where
  risk : Int := 0
  confidence : Int := 0
  reasoning : String := ""
  reviewUpdates : List (String × ReviewUpdate) := []
deriving Repr, DecidableEq

/-- `GPTAnalyzer._analyze_code_type` (gpt_analyzer.py lines 167-182). -/
def analyze_code_type (code_files : List (String × String)) : String :=
  let file_names := pyLower (String.intercalate " " (code_files.map Prod.fst))
  let content_sample :=
    if code_files.isEmpty then ""
    else pyLower (String.intercalate " " ((code_files.map Prod.snd).take 3))
  let combined := file_names ++ " " ++ content_sample
  if ["auth", "login", "token", "password", "session"].any
      (fun k => strContains combined k) then "authentication"
  else if ["db", "database", "sql", "query", "model"].any
      (fun k => strContains combined k) then "database"
  else if ["api", "endpoint", "route", "handler"].any
      (fun k => strContains combined k) then "api"
  else if ["payment", "stripe", "paypal", "billing"].any
      (fun k => strContains combined k) then "payment"
  else "general"

/-- Decimal value of a digit run. -/
def digitsToNat (ds : List Char) : Nat :=
  ds.foldl (fun n c => 10 * n + (c.toNat - 48)) 0

/-- `re.search(r'(\d+)\s+<kw>', out)`: the number of the leftmost
position where one-or-more digits, one-or-more whitespace characters and
the literal keyword match. -/
def searchNumBefore (kw : List Char) : List Char → Option Nat
  | [] => none
  | l@(_ :: t) =>
    let ds := l.takeWhile Char.isDigit
    if ds.isEmpty then searchNumBefore kw t
    else
      let r1 := l.drop ds.length
      let ws := r1.takeWhile isPyWs
      if ws.isEmpty = false ∧ leadsWith kw (r1.drop ws.length) = true then
        some (digitsToNat ds)
      else searchNumBefore kw t

/-- Pass/fail count extraction (gpt_analyzer.py lines 93-110): a count is
searched only when the bare keyword occurs, and an absent regex match
yields zero. -/
def extractCount (kw out : String) : Nat :=
  if strContains out kw then (searchNumBefore kw.data out.data).getD 0 else 0

/-- Stand-in for `json.dumps(coderabbit_reviews, indent=2)` inside the
prompt: a deterministic rendering of the findings list (library code,
not part of this repository; no claim depends on its exact shape). -/
def renderReviews (rs : List ReviewFinding) : String :=
  "[" ++ String.intercalate ", "
    (rs.map (fun r =>
      "\x7b name: " ++ r.name ++ ", type: " ++ r.type ++
        ", description: " ++ r.description ++ "\x7d")) ++ "]"

/-- `GPTAnalyzer._build_analysis_prompt` (gpt_analyzer.py lines 76-165):
the user prompt interpolating PR metadata, the classified findings, the
extracted test counts and the code-file names into the fixed template
(static template text abridged to its section headers; the scoring call
consumes the prompt opaquely). -/
def build_analysis_prompt (pr_info : PRInfo) (coderabbit_reviews : List ReviewFinding)
    (test_results : Option TestStageResult) (code_files : List (String × String)) :
    String :=
  let code_type := analyze_code_type code_files
  let passed_tests := match test_results with
    | some tr => extractCount "passed" tr.output
    | none => 0
  let failed_tests := match test_results with
    | some tr => extractCount "failed" tr.output
    | none => 0
  let test_count := passed_tests + failed_tests
  "Analyze this pull request and provide a risk assessment.\n\n" ++
  "PR Information:\n- Title: " ++ pr_info.title ++
  "\n- Description: " ++ String.mk (pr_info.body.data.take 500) ++
  "\n- Code Type: " ++ code_type ++
  "\n\nCoderabbit Reviews (" ++ toString coderabbit_reviews.length ++ "):\n" ++
  renderReviews coderabbit_reviews ++
  "\n\nTest Results:\n- Status: " ++
  (match test_results with
   | some tr => tr.status
   | none => "no_tests") ++
  "\n- Total Tests: " ++ toString test_count ++
  "\n- Passed: " ++ toString passed_tests ++
  "\n- Failed: " ++ toString failed_tests ++
  "\n- Output: " ++
  (match test_results with
   | some tr => String.mk (tr.output.data.take 1000)
   | none => "N/A") ++
  "\n\nCode Files (" ++ toString code_files.length ++ "):\n" ++
  String.intercalate ", " ((code_files.map Prod.fst).take 10) ++
  "\n\nProvide a JSON response with the following structure:\n" ++
  "\x7b risk confidence reasoning reviewUpdates \x7d template\n" ++
  "Risk Assessment Guidelines / Confidence Guidelines / review analysis instructions"

/-- The safe default returned when the scoring call fails
(gpt_analyzer.py lines 68-74). -/
def defaultAnalysis (e : String) : Analysis :=
  { risk := 50, confidence := 0,
    reasoning := "Error in GPT analysis: " ++ e, reviewUpdates := [] }

/-- `GPTAnalyzer.analyze_pr` (gpt_analyzer.py lines 27-74).  `llm` is the
chat-completion collaborator (prompt to response text), `parseJson` the
`json.loads` + structured decoding of the response; the `try` block wraps
both, every failure yields the safe default. -/
def analyze_pr (llm : String → Except String String)
    (parseJson : String → Except String Analysis) (pr_info : PRInfo)
    (coderabbit_reviews : List ReviewFinding) (test_results : Option TestStageResult)
    (code_files : List (String × String)) : Analysis :=
  let prompt := build_analysis_prompt pr_info coderabbit_reviews test_results code_files
  match llm prompt with
  | .error e => defaultAnalysis e
  | .ok txt =>
    match parseJson txt with
    | .error e => defaultAnalysis e
    | .ok a => a

/-! ## Review updates applied by name (pr_processor.py lines 112-115) -/

/-- Python `name in analysis["reviewUpdates"]` followed by indexing. -/
def lookupUpdate (upd : List (String × ReviewUpdate)) (name : String) :
    Option ReviewUpdate :=
  match upd with
  | [] => none
  | kv :: t => if kv.1 = name then some kv.2 else lookupUpdate t name

/-- `review.update(analysis["reviewUpdates"][review["name"]])`: fields
present in the update overwrite the finding's fields. -/
def applyUpdate (r : ReviewFinding) (u : ReviewUpdate) : ReviewFinding :=
  { name := r.name,
    type := match u.type with | some t => t | none => r.type,
    description := match u.description with | some d => d | none => r.description,
    risk := match u.risk with | some v => some v | none => r.risk }

/-- The update loop over `result["coderabbitReviews"]`. -/
def applyReviewUpdates (upd : List (String × ReviewUpdate))
    (rs : List ReviewFinding) : List ReviewFinding :=
  rs.map (fun r =>
    match lookupUpdate upd r.name with
    | some u => applyUpdate r u
    | none => r)

/-! ## Sandbox test stage (pr_processor.py `_run_tests_in_daytona`) -/

structure RunResp where
  exitCode : Int
  result : String
deriving Repr, DecidableEq

/-- External effects of one `_run_tests_in_daytona` invocation, each at
the call site where the source performs it. -/
structure DaytonaEnv where
  prepareCode : Except String (List (String × String))
  prepareTests : Except String (List (String × String))
  astParse : String → Option (List ImpStmt)
  srcPRInfo : Except String Unit
  tree : Except String (List String)
  fetchFile : String → Option String
  changed : Except String (List String)
  createSandbox : Except String Unit
  setupEnv : Except String Unit
  installDeps : Except String Unit
  runTests : String → Except String RunResp
  deleteSandbox : Except String Unit

/-- The result record as initialized and then error-stamped by the outer
`except` (pr_processor.py lines 165-170 and 233-236). -/
def errorTSR (e : String) : TestStageResult :=
  { status := "error", exitCode := none, output := "",
    generatedTests := [], error := some e }

/-- `TestRunner.cleanup` (test_runner.py lines 124-130): the delete call
is attempted and any exception is swallowed. -/
def cleanup (deleteSandbox : Except String Unit) : Except String Unit :=
  match deleteSandbox with
  | .ok _ => .ok ()
  | .error _ => .ok ()

/-- `PRProcessor._run_tests_in_daytona` (pr_processor.py lines 150-238),
paired with the trace of effect milestones: `create_sandbox_ok` is
recorded exactly when provisioning succeeded, `cleanup` exactly when the
`finally` block invoked `TestRunner.cleanup`. -/
def run_tests_in_daytona (env : DaytonaEnv) : TestStageResult × List String :=
  match env.prepareCode with
  | .error e => (errorTSR e, ["prepare_code"])
  | .ok code0 =>
    match env.prepareTests with
    | .error e => (errorTSR e, ["prepare_code", "prepare_tests"])
    | .ok test_files =>
      let t0 := ["prepare_code", "prepare_tests"]
      if test_files.isEmpty then
        ({ status := "no_tests", exitCode := none, output := "",
           generatedTests := [], error := none }, t0)
      else
        let mods := parse_imports_from_test_files env.astParse test_files
        match (if mods.isEmpty then Except.ok code0
               else (fetch_source_files_from_imports env.srcPRInfo env.tree
                       env.fetchFile env.changed mods code0).map
                      (fun src => code0 ++ src)) with
        | .error e => (errorTSR e, t0)
        | .ok code_files =>
          match env.createSandbox with
          | .error e => (errorTSR e, t0 ++ ["create_sandbox_fail"])
          | .ok _ =>
            let t1 := t0 ++ ["create_sandbox_ok"]
            let body : Except String RunResp :=
              match env.setupEnv with
              | .error e => .error e
              | .ok _ =>
                match env.installDeps with
                | .error e => .error e
                | .ok _ =>
                  env.runTests (detect_test_command (code_files ++ test_files))
            match body with
            | .error e => (errorTSR e, t1 ++ ["cleanup"])
            | .ok resp =>
              ({ status := if resp.exitCode = 0 then "passed" else "failed",
                 exitCode := some resp.exitCode,
                 output := resp.result,
                 generatedTests := extractGeneratedTests test_files,
                 error := none }, t1 ++ ["cleanup"])

/-! ## Per-PR orchestration (pr_processor.py `process_pr`) -/

structure PipelineResult where
  id : Int
  title : String
  link : String
  risk : Int
  coderabbitReviews : List ReviewFinding
  generatedTests : List GeneratedTest
  testResults : Option TestStageResult
  testError : Option String := none
  gptError : Option String := none
  error : Option String := none
deriving Repr, DecidableEq

/-- External effects of one `process_pr` invocation. -/
structure PREnv where
  getPRInfo : Except String PRInfo
  checkReview : Except String Bool
  getComments : Except String (List Comment)
  trigger : Except String Unit
  findTestPR : Except String (Option Int)
  daytona : DaytonaEnv
  getPRFiles : Except String (List (String × String))
  llm : String → Except String String
  parseJson : String → Except String Analysis

/-- Steps of `process_pr` before any stage-local `try`: fetching PR info,
the review check, and comment collection are uncaught — a failure
propagates to the batch driver (pr_processor.py lines 41-65). -/
def pr_stage_reviews (env : PREnv) : Except String (PRInfo × List ReviewFinding) :=
  match env.getPRInfo with
  | .error e => .error e
  | .ok info =>
    match env.checkReview with
    | .error e => .error e
    | .ok hasReview =>
      if hasReview then
        match env.getComments with
        | .error e => .error e
        | .ok cs => .ok (info, cs.filterMap extract_review_info)
      else .ok (info, [])

structure TestOutcome where
  testResults : Option TestStageResult
  generatedTests : List GeneratedTest
  testError : Option String
deriving Repr, DecidableEq

/-- The test stage of `process_pr` (lines 67-97): its `try` catches
trigger and search failures into `testError`; a missing companion PR
skips execution; the Daytona run itself never raises. -/
def pr_stage_tests (env : PREnv) (skip_tests : Bool) : TestOutcome :=
  if skip_tests then ⟨none, [], none⟩
  else
    match env.trigger with
    | .error e => ⟨none, [], some e⟩
    | .ok _ =>
      match env.findTestPR with
      | .error e => ⟨none, [], some e⟩
      | .ok none => ⟨none, [], none⟩
      | .ok (some _) =>
        let tr := (run_tests_in_daytona env.daytona).1
        ⟨some tr, tr.generatedTests, none⟩

structure GptOutcome where
  risk : Int
  reviews : List ReviewFinding
  gptError : Option String
  analysis : Option Analysis
deriving Repr, DecidableEq

/-- The scoring stage of `process_pr` (lines 99-119): fetching the PR
files can raise inside the stage `try` (caught into `gptError`, leaving
`risk` at 0); otherwise the analyzer's response sets `risk` and the
review updates are applied. -/
def pr_stage_gpt (env : PREnv) (skip_gpt : Bool) (info : PRInfo)
    (reviews : List ReviewFinding) (trOpt : Option TestStageResult) : GptOutcome :=
  if skip_gpt then ⟨0, reviews, none, none⟩
  else
    match env.getPRFiles with
    | .error e => ⟨0, reviews, some e, none⟩
    | .ok files =>
      let a := analyze_pr env.llm env.parseJson info reviews trOpt files
      ⟨a.risk, applyReviewUpdates a.reviewUpdates reviews, none, some a⟩

/-- `PRProcessor.process_pr` (pr_processor.py lines 30-121): the result
record starts with `risk := 0` and is mutated by the stages in order. -/
def process_pr (env : PREnv) (pr_number : Int) (skip_tests skip_gpt : Bool) :
    Except String PipelineResult :=
  match pr_stage_reviews env with
  | .error e => .error e
  | .ok (info, reviews) =>
    let t := pr_stage_tests env skip_tests
    let g := pr_stage_gpt env skip_gpt info reviews t.testResults
    .ok { id := pr_number, title := info.title, link := info.htmlUrl,
          risk := g.risk, coderabbitReviews := g.reviews,
          generatedTests := t.generatedTests, testResults := t.testResults,
          testError := t.testError, gptError := g.gptError, error := none }

/-! ## Batch driver (main.py lines 138-170) -/

structure PRSummary where
  number : Int
  title : String
  htmlUrl : String
deriving Repr, DecidableEq

/-- The error entry appended when processing one PR raises
(main.py lines 161-170). -/
def error_entry (pr : PRSummary) (e : String) : PipelineResult :=
  { id := pr.number, title := pr.title, link := pr.htmlUrl, risk := 0,
    coderabbitReviews := [], generatedTests := [], testResults := none,
    testError := none, gptError := none, error := some e }

/-- The per-PR loop of `main`: each PR is processed with its own
environment; an uncaught exception becomes an error entry and the loop
continues with the next PR. -/
def main_batch_loop (prs : List PRSummary) (envOf : Int → PREnv)
    (skip_tests skip_gpt : Bool) : List PipelineResult :=
  prs.map (fun pr =>
    match process_pr (envOf pr.number) pr.number skip_tests skip_gpt with
    | .ok r => r
    | .error e => error_entry pr e)

/-- A concrete environment exercising the pipeline theorems on a closed
input: no review, test stage skipped, scoring succeeding with risk 42. -/
def pipelineWitnessEnv (_pr : Int) : PREnv :=
  { getPRInfo := .ok { title := "T", htmlUrl := "L" },
    checkReview := .ok false,
    getComments := .ok [],
    trigger := .ok (),
    findTestPR := .ok none,
    daytona :=
      { prepareCode := .ok [], prepareTests := .ok [],
        astParse := fun _ => none, srcPRInfo := .ok (), tree := .ok [],
        fetchFile := fun _ => none, changed := .ok [],
        createSandbox := .ok (), setupEnv := .ok (), installDeps := .ok (),
        runTests := fun _ => .ok { exitCode := 0, result := "" },
        deleteSandbox := .ok () },
    getPRFiles := .ok [],
    llm := fun _ => .ok "resp",
    parseJson := fun _ => .ok { risk := 42, confidence := 7, reasoning := "ok" } }

/-! ## General lemmas about the string helpers and the dict model -/

theorem leadsWith_refl (l : List Char) : leadsWith l l = true := by
  induction l with
  | nil => rfl
  | cons a t ih => simp [leadsWith, ih]

theorem containsSub_append_right (xs ys : List Char) :
    containsSub (xs ++ ys) ys = true := by
  induction xs with
  | nil =>
    cases ys with
    | nil => rfl
    | cons a t => simp [containsSub, leadsWith_refl]
  | cons a t ih => simp [containsSub, ih]

theorem dictGet_foldl_or (d : List (String × String)) (k : String)
    (i : Option String) :
    d.foldl (fun acc kv => if kv.1 = k then some kv.2 else acc) i =
      match dictGet d k with
      | some v => some v
      | none => i := by
  induction d generalizing i with
  | nil => simp [dictGet]
  | cons kv t ih =>
    simp only [dictGet, List.foldl_cons] at *
    rw [ih, ih (if kv.1 = k then some kv.2 else none)]
    by_cases h : kv.1 = k <;> simp [h] <;> cases t.foldl
      (fun acc kv => if kv.1 = k then some kv.2 else acc) none <;> simp

theorem dictGet_append (a b : List (String × String)) (k : String) :
    dictGet (a ++ b) k =
      match dictGet b k with
      | some v => some v
      | none => dictGet a k := by
  unfold dictGet
  rw [List.foldl_append, dictGet_foldl_or]
  rfl

theorem leadsWith_append (pat l r : List Char) (h : leadsWith pat l = true) :
    leadsWith pat (l ++ r) = true := by
  induction pat generalizing l with
  | nil => rfl
  | cons a pa ih =>
    cases l with
    | nil => simp [leadsWith] at h
    | cons b t =>
      simp only [leadsWith, List.cons_append, Bool.and_eq_true] at h ⊢
      exact ⟨h.1, ih t h.2⟩

theorem containsSub_of_leadsWith (l pat : List Char) (h : leadsWith pat l = true) :
    containsSub l pat = true := by
  cases l with
  | nil => simpa [containsSub] using h
  | cons c t => simp [containsSub, h]

/-! ## Claim C2 — the Risk Scorer never raises and fails to a safe default -/

/-- C2: for every input, `analyze_pr` is total: it returns the parsed
analysis on success and otherwise exactly the default record with risk
50, confidence 0 and a reasoning string containing the error description
(and the word "Error"); no other outcome exists. -/
theorem claim_C2_scorer_safe_default :
    ∀ (llm : String → Except String String)
      (parseJson : String → Except String Analysis) (pr_info : PRInfo)
      (reviews : List ReviewFinding) (test_results : Option TestStageResult)
      (code_files : List (String × String)),
      (∀ e, llm (build_analysis_prompt pr_info reviews test_results code_files) =
          .error e →
        analyze_pr llm parseJson pr_info reviews test_results code_files =
          defaultAnalysis e) ∧
      (∀ t e, llm (build_analysis_prompt pr_info reviews test_results code_files) =
          .ok t → parseJson t = .error e →
        analyze_pr llm parseJson pr_info reviews test_results code_files =
          defaultAnalysis e) ∧
      (∀ t a, llm (build_analysis_prompt pr_info reviews test_results code_files) =
          .ok t → parseJson t = .ok a →
        analyze_pr llm parseJson pr_info reviews test_results code_files = a) ∧
      (∀ e, (defaultAnalysis e).risk = 50 ∧ (defaultAnalysis e).confidence = 0 ∧
        strContains (defaultAnalysis e).reasoning e = true ∧
        strContains (defaultAnalysis e).reasoning "Error" = true) := by
  intro llm parseJson pr_info reviews test_results code_files
  refine ⟨?_, ?_, ?_, ?_⟩
  · intro e h
    simp only [analyze_pr, h]
  · intro t e hllm hp
    simp only [analyze_pr, hllm, hp]
  · intro t a hllm hp
    simp only [analyze_pr, hllm, hp]
  · intro e
    refine ⟨rfl, rfl, ?_, ?_⟩
    · show strContains ("Error in GPT analysis: " ++ e) e = true
      unfold strContains
      rw [String.data_append]
      exact containsSub_append_right _ _
    · show strContains ("Error in GPT analysis: " ++ e) "Error" = true
      unfold strContains
      rw [String.data_append]
      exact containsSub_of_leadsWith _ _
        (leadsWith_append _ _ _ (by decide))

/-- Witness for C2: a forced network failure at a concrete input yields
exactly the documented default. -/
theorem claim_C2_scorer_safe_default_witness :
    analyze_pr (fun _ => .error "Connection refused") (fun _ => .error "unused")
        { title := "T" } [] none [] =
      defaultAnalysis "Connection refused" ∧
    (defaultAnalysis "Connection refused").risk = 50 ∧
    (defaultAnalysis "Connection refused").confidence = 0 ∧
    strContains (defaultAnalysis "Connection refused").reasoning "Error" = true := by
  obtain ⟨h1, _, _, h4⟩ := claim_C2_scorer_safe_default
    (fun _ => .error "Connection refused") (fun _ => .error "unused")
    { title := "T" } [] none []
  obtain ⟨hr, hc, _, he⟩ := h4 "Connection refused"
  exact ⟨h1 "Connection refused" rfl, hr, hc, he⟩

/-! ## Claim C6 — first-match-wins classification and 200-char truncation -/

/-- C6: for any comment by a coderabbit-named author, the finding's type
is classified first-match-wins in the order danger, warning, success,
info against the lower-cased body (so any danger keyword wins regardless
of other overlaps), and the description is the body truncated to 200
characters with an ellipsis exactly when the body exceeds 200
characters. -/
theorem claim_C6_classification_and_truncation :
    ∀ u b : String, strContains (pyLower u) "coderabbit" = true →
    ∃ r, extract_review_info ⟨u, b⟩ = some r ∧
      (∀ k ∈ dangerKeywords, strContains (pyLower b) k = true →
        r.type = "danger") ∧
      ((∀ k ∈ dangerKeywords, strContains (pyLower b) k = false) →
        ∀ k ∈ warningKeywords, strContains (pyLower b) k = true →
        r.type = "warning") ∧
      ((∀ k ∈ dangerKeywords, strContains (pyLower b) k = false) →
        (∀ k ∈ warningKeywords, strContains (pyLower b) k = false) →
        ∀ k ∈ successKeywords, strContains (pyLower b) k = true →
        r.type = "success") ∧
      ((∀ k ∈ dangerKeywords ++ warningKeywords ++ successKeywords,
          strContains (pyLower b) k = false) → r.type = "info") ∧
      (b.length > 200 → r.description = String.mk (b.data.take 200) ++ "...") ∧
      (b.length ≤ 200 → r.description = b) := by
  intro u b hu
  unfold extract_review_info
  simp only [hu, Bool.true_eq_false, if_false]
  refine ⟨_, rfl, ?_, ?_, ?_, ?_, ?_, ?_⟩
  · intro k hk hc
    have hd : dangerKeywords.any (fun k => strContains (pyLower b) k) = true :=
      List.any_eq_true.mpr ⟨k, hk, hc⟩
    simp [hd]
  · intro hnone k hk hc
    have hd : dangerKeywords.any (fun k => strContains (pyLower b) k) = false := by
      rw [List.any_eq_false]; intro x hx; simp [hnone x hx]
    have hw : warningKeywords.any (fun k => strContains (pyLower b) k) = true :=
      List.any_eq_true.mpr ⟨k, hk, hc⟩
    simp [hd, hw]
  · intro hnd hnw k hk hc
    have hd : dangerKeywords.any (fun k => strContains (pyLower b) k) = false := by
      rw [List.any_eq_false]; intro x hx; simp [hnd x hx]
    have hw : warningKeywords.any (fun k => strContains (pyLower b) k) = false := by
      rw [List.any_eq_false]; intro x hx; simp [hnw x hx]
    have hs : successKeywords.any (fun k => strContains (pyLower b) k) = true :=
      List.any_eq_true.mpr ⟨k, hk, hc⟩
    simp [hd, hw, hs]
  · intro hall
    have hd : dangerKeywords.any (fun k => strContains (pyLower b) k) = false := by
      rw [List.any_eq_false]; intro x hx
      simp [hall x (by simp [dangerKeywords] at hx ⊢; tauto)]
    have hw : warningKeywords.any (fun k => strContains (pyLower b) k) = false := by
      rw [List.any_eq_false]; intro x hx
      simp [hall x (by simp [warningKeywords] at hx ⊢; tauto)]
    have hs : successKeywords.any (fun k => strContains (pyLower b) k) = false := by
      rw [List.any_eq_false]; intro x hx
      simp [hall x (by simp [successKeywords] at hx ⊢; tauto)]
    simp [hd, hw, hs]
  · intro h200
    simp [h200]
  · intro h200
    simp [Nat.not_lt.mpr h200]

/-- Witness for C6 at a concrete comment: a body containing "security"
next to a success keyword still classifies as danger, and a short body
is kept verbatim. -/
theorem claim_C6_classification_witness :
    ∃ r, extract_review_info
        ⟨"coderabbit[bot]", "Approved, but a security review is good"⟩ = some r ∧
      r.type = "danger" ∧ r.description = "Approved, but a security review is good" := by
  obtain ⟨r, hr, hd, _, _, _, _, hshort⟩ :=
    claim_C6_classification_and_truncation "coderabbit[bot]"
      "Approved, but a security review is good" (by decide)
  exact ⟨r, hr, hd "security" (by decide) (by decide), hshort (by decide)⟩

/-! ## Claim C9 — merged file sets: test files win on collision -/

/-- C9: in the merged file set materialized by `setup_environment`, a
path bound in the test files always maps to the test file's content
(covering the collision case), and a path not bound there keeps the code
file's content. -/
theorem claim_C9_merge_test_precedence :
    ∀ (code_files test_files : List (String × String)) (k : String),
      ((dictGet test_files k).isSome = true →
        dictGet (setup_environment_all_files code_files test_files) k =
          dictGet test_files k) ∧
      (dictGet test_files k = none →
        dictGet (setup_environment_all_files code_files test_files) k =
          dictGet code_files k) := by
  intro code_files test_files k
  unfold setup_environment_all_files
  constructor
  · intro hs
    rw [dictGet_append]
    cases h : dictGet test_files k with
    | none => rw [h] at hs; simp at hs
    | some v => simp
  · intro hn
    rw [dictGet_append, hn]

/-- Witness for C9: a concrete collision resolves to the test content
and a test-only / code-only path keeps its content. -/
theorem claim_C9_merge_test_precedence_witness :
    dictGet (setup_environment_all_files [("a.py", "old"), ("b.py", "keep")]
        [("a.py", "new")]) "a.py" = dictGet [("a.py", "new")] "a.py" ∧
    dictGet (setup_environment_all_files [("a.py", "old"), ("b.py", "keep")]
        [("a.py", "new")]) "b.py" =
      dictGet [("a.py", "old"), ("b.py", "keep")] "b.py" := by
  refine ⟨(claim_C9_merge_test_precedence [("a.py", "old"), ("b.py", "keep")]
    [("a.py", "new")] "a.py").1 (by decide),
    (claim_C9_merge_test_precedence [("a.py", "old"), ("b.py", "keep")]
    [("a.py", "new")] "b.py").2 (by decide)⟩

/-! ## Claim C10 — the constant finding name makes updates all-or-nothing -/

theorem applyReviewUpdates_const_name (upd : List (String × ReviewUpdate))
    (rs : List ReviewFinding)
    (h : ∀ r ∈ rs, r.name = "Coderabbit Review") :
    (lookupUpdate upd "Coderabbit Review" = none →
      applyReviewUpdates upd rs = rs) ∧
    (∀ u, lookupUpdate upd "Coderabbit Review" = some u →
      applyReviewUpdates upd rs = rs.map (fun r => applyUpdate r u)) := by
  induction rs with
  | nil => exact ⟨fun _ => rfl, fun _ _ => rfl⟩
  | cons r t ih =>
    obtain ⟨ihn, ihs⟩ := ih (fun x hx => h x (List.mem_cons_of_mem r hx))
    have hname := h r (List.mem_cons_self r t)
    constructor
    · intro hn
      show (match lookupUpdate upd r.name with
            | some u => applyUpdate r u
            | none => r) :: applyReviewUpdates upd t = r :: t
      rw [hname, hn, ihn hn]
    · intro u hu
      show (match lookupUpdate upd r.name with
            | some u => applyUpdate r u
            | none => r) :: applyReviewUpdates upd t =
        applyUpdate r u :: t.map (fun r => applyUpdate r u)
      rw [hname, hu, ihs u hu]

/-- C10: every finding the tracker produces carries the constant name
"Coderabbit Review"; consequently, over any comment list, an update set
without that key changes no finding, and an update keyed by that name
rewrites every finding — per-finding selective updates are impossible. -/
theorem claim_C10_constant_name_all_or_nothing :
    (∀ c r, extract_review_info c = some r → r.name = "Coderabbit Review") ∧
    (∀ (cs : List Comment) (upd : List (String × ReviewUpdate)),
      (lookupUpdate upd "Coderabbit Review" = none →
        applyReviewUpdates upd (cs.filterMap extract_review_info) =
          cs.filterMap extract_review_info) ∧
      (∀ u, lookupUpdate upd "Coderabbit Review" = some u →
        applyReviewUpdates upd (cs.filterMap extract_review_info) =
          (cs.filterMap extract_review_info).map (fun r => applyUpdate r u))) := by
  have hname : ∀ c r, extract_review_info c = some r → r.name = "Coderabbit Review" := by
    intro c r h
    unfold extract_review_info at h
    split at h
    · exact absurd h (by simp)
    · injection h with h'
      subst h'
      rfl
  refine ⟨hname, ?_⟩
  intro cs upd
  exact applyReviewUpdates_const_name upd (cs.filterMap extract_review_info)
    (fun r hr => by
      obtain ⟨c, _, hc⟩ := List.mem_filterMap.mp hr
      exact hname c r hc)

/-- Witness for C10: with two distinct coderabbit comments, an update
keyed "Coderabbit Review" rewrites both findings, and an update keyed
otherwise leaves both untouched. -/
theorem claim_C10_constant_name_witness :
    (extract_review_info ⟨"coderabbit[bot]", "bug"⟩ = some
        { name := "Coderabbit Review", type := "danger", description := "bug" } →
      ({ name := "Coderabbit Review", type := "danger", description := "bug" } :
        ReviewFinding).name = "Coderabbit Review") ∧
    applyReviewUpdates [("Other", { type := some "info" })]
        ([⟨"coderabbit[bot]", "bug"⟩, ⟨"coderabbit[bot]", "good"⟩].filterMap
          extract_review_info) =
      [⟨"coderabbit[bot]", "bug"⟩, ⟨"coderabbit[bot]", "good"⟩].filterMap
        extract_review_info ∧
    applyReviewUpdates [("Coderabbit Review", { type := some "info" })]
        ([⟨"coderabbit[bot]", "bug"⟩, ⟨"coderabbit[bot]", "good"⟩].filterMap
          extract_review_info) =
      ([⟨"coderabbit[bot]", "bug"⟩, ⟨"coderabbit[bot]", "good"⟩].filterMap
        extract_review_info).map
        (fun r => applyUpdate r { type := some "info" }) := by
  refine ⟨claim_C10_constant_name_all_or_nothing.1 _ _, ?_, ?_⟩
  · exact (claim_C10_constant_name_all_or_nothing.2
      [⟨"coderabbit[bot]", "bug"⟩, ⟨"coderabbit[bot]", "good"⟩]
      [("Other", { type := some "info" })]).1 (by decide)
  · exact (claim_C10_constant_name_all_or_nothing.2
      [⟨"coderabbit[bot]", "bug"⟩, ⟨"coderabbit[bot]", "good"⟩]
      [("Coderabbit Review", { type := some "info" })]).2
      { type := some "info" } (by decide)

/-! ## Claim C5 — import extraction -/

theorem mem_addOnce_left (acc : List String) (m x : String) (h : x ∈ acc) :
    x ∈ addOnce acc m := by
  unfold addOnce
  split <;> simp [h]

theorem mem_addOnce_self (acc : List String) (m : String) :
    m ∈ addOnce acc m := by
  unfold addOnce
  split <;> simp_all

theorem mem_addModule_left (acc : List String) (m x : String) (h : x ∈ acc) :
    x ∈ addModule acc m := by
  unfold addModule
  split
  · exact mem_addOnce_left _ _ _ (mem_addOnce_left _ _ _ h)
  · exact mem_addOnce_left _ _ _ h

theorem mem_addModule_self (acc : List String) (m : String) :
    m ∈ addModule acc m := by
  unfold addModule
  split
  · exact mem_addOnce_left _ _ _ (mem_addOnce_self _ _)
  · exact mem_addOnce_self _ _

theorem firstSegment_mem_addModule (acc : List String) (m : String)
    (h : hasDot m = true) : firstSegment m ∈ addModule acc m := by
  unfold addModule
  rw [if_pos h]
  exact mem_addOnce_self _ _

theorem mem_foldl_addModule_left (caps : List String) (acc : List String)
    (x : String) (h : x ∈ acc) : x ∈ caps.foldl addModule acc := by
  induction caps generalizing acc with
  | nil => exact h
  | cons c t ih => exact ih (addModule acc c) (mem_addModule_left acc c x h)

theorem mem_foldl_addModule (caps : List String) (acc : List String)
    (m : String) (h : m ∈ caps) :
    m ∈ caps.foldl addModule acc ∧
      (hasDot m = true → firstSegment m ∈ caps.foldl addModule acc) := by
  induction caps generalizing acc with
  | nil => cases h
  | cons c t ih =>
    rcases List.mem_cons.mp h with rfl | hm
    · constructor
      · exact mem_foldl_addModule_left t _ _ (mem_addModule_self acc m)
      · intro hd
        exact mem_foldl_addModule_left t _ _ (firstSegment_mem_addModule acc m hd)
    · exact ih (addModule acc c) hm

theorem mem_files_foldl_left (astParse : String → Option (List ImpStmt))
    (files : List (String × String)) (acc : List String) (x : String)
    (h : x ∈ acc) :
    x ∈ files.foldl
      (fun acc pc => (fileCaptured astParse pc.1 pc.2).foldl addModule acc) acc := by
  induction files generalizing acc with
  | nil => exact h
  | cons pc fs ih =>
    exact ih _ (mem_foldl_addModule_left _ acc x h)

theorem parse_imports_closure (astParse : String → Option (List ImpStmt))
    (files : List (String × String)) (acc : List String) (m : String)
    (h : m ∈ capturedModulePaths astParse files) :
    m ∈ files.foldl
        (fun acc pc => (fileCaptured astParse pc.1 pc.2).foldl addModule acc) acc ∧
      (hasDot m = true →
        firstSegment m ∈ files.foldl
          (fun acc pc => (fileCaptured astParse pc.1 pc.2).foldl addModule acc) acc) := by
  induction files generalizing acc with
  | nil => simp [capturedModulePaths] at h
  | cons pc fs ih =>
    simp only [capturedModulePaths, List.map_cons, List.flatten_cons,
      List.mem_append] at h
    rcases h with h | h
    · obtain ⟨h1, h2⟩ := mem_foldl_addModule _ acc m h
      refine ⟨mem_files_foldl_left astParse fs _ m h1, fun hd => ?_⟩
      exact mem_files_foldl_left astParse fs _ _ (h2 hd)
    · exact ih _ h

/-- C5 (amended): in both the structural mode and the regex fallback,
every captured module path is in the returned set, and when the path is
dotted so is its first segment; in particular the file
`from app.auth import login` yields both `app.auth` and `app`.  (The
fallback, however, captures the leading identifier of every line that
begins with one — not only of import-like lines; see the
counterexample.) -/
theorem claim_C5_import_extraction_amended :
    (∀ (astParse : String → Option (List ImpStmt))
       (files : List (String × String)) (m : String),
      m ∈ capturedModulePaths astParse files →
      m ∈ parse_imports_from_test_files astParse files ∧
        (hasDot m = true →
          firstSegment m ∈ parse_imports_from_test_files astParse files)) ∧
    ("app.auth" ∈ parse_imports_from_test_files
        (fun c => if c = "from app.auth import login"
          then some [.fromImp (some "app.auth")] else none)
        [("test_app.py", "from app.auth import login")] ∧
      "app" ∈ parse_imports_from_test_files
        (fun c => if c = "from app.auth import login"
          then some [.fromImp (some "app.auth")] else none)
        [("test_app.py", "from app.auth import login")]) := by
  constructor
  · intro astParse files m h
    exact parse_imports_closure astParse files [] m h
  · constructor <;> decide

/-- Witness for C5: the closure property applied at the concrete
`from app.auth import login` input. -/
theorem claim_C5_import_extraction_witness :
    "app.auth" ∈ parse_imports_from_test_files
        (fun c => if c = "from app.auth import login"
          then some [.fromImp (some "app.auth")] else none)
        [("test_app.py", "from app.auth import login")] ∧
      "app" ∈ parse_imports_from_test_files
        (fun c => if c = "from app.auth import login"
          then some [.fromImp (some "app.auth")] else none)
        [("test_app.py", "from app.auth import login")] := by
  obtain ⟨h1, h2⟩ := claim_C5_import_extraction_amended.1
    (fun c => if c = "from app.auth import login"
      then some [.fromImp (some "app.auth")] else none)
    [("test_app.py", "from app.auth import login")] "app.auth" (by decide)
  exact ⟨h1, h2 (by decide)⟩

/-- Counterexample to C5 as stated: on a file that fails to parse, the
fallback also captures the leading identifiers of ordinary assignment
and definition lines (`x = 1`, `def f(:`), which are not import-like, so
the fallback does not capture "only import-like lines". -/
theorem claim_C5_import_extraction_counterexample :
    parse_imports_from_test_files (fun _ => none)
        [("t.py", "x = 1\ndef f(:")] = ["x", "def"] ∧
      "x" ∈ parse_imports_from_test_files (fun _ => none)
        [("t.py", "x = 1\ndef f(:")] := by
  constructor <;> decide

/-! ## Claims C7 and C3 — source resolution -/

/-- The exclusion invariant of the branch-listing fold: no produced path
contains "test" (case-insensitively) and none is already fetched. -/
theorem branch_foldl_excludes (existingPaths : List String)
    (fetchFile : String → Option String) (mods : List String) :
    ∀ (items : List String) (acc : List (String × String)),
      (∀ p ∈ acc.map Prod.fst,
        strContains (pyLower p) "test" = false ∧ p ∉ existingPaths) →
      ∀ p ∈ (items.foldl (branchStep existingPaths fetchFile mods) acc).map Prod.fst,
        strContains (pyLower p) "test" = false ∧ p ∉ existingPaths := by
  intro items
  induction items with
  | nil => intro acc hacc p hp; exact hacc p hp
  | cons q t ih =>
    intro acc hacc p hp
    refine ih (branchStep existingPaths fetchFile mods acc q) ?_ p hp
    intro x hx
    unfold branchStep at hx
    split_ifs at hx with h1 h2 h3
    · exact hacc x hx
    · exact hacc x hx
    · exact hacc x hx
    · revert hx
      cases tryModules fetchFile q mods with
      | none => exact fun hx => hacc x hx
      | some c =>
        intro hx
        simp only [List.map_append, List.map_cons, List.map_nil, List.mem_append,
          List.mem_singleton] at hx
        rcases hx with hx | rfl
        · exact hacc x hx
        · refine ⟨?_, fun hmem => h1 (Or.inl hmem)⟩
          rcases Bool.eq_false_or_eq_true (strContains (pyLower x) "test") with hb | hb
          · exact absurd (Or.inl hb) h2
          · exact hb

/-- The same exclusion invariant for the changed-files fallback fold. -/
theorem fallback_foldl_excludes (existingPaths : List String)
    (fetchFile : String → Option String) (mods : List String) :
    ∀ (items : List String) (acc : List (String × String)),
      (∀ p ∈ acc.map Prod.fst,
        strContains (pyLower p) "test" = false ∧ p ∉ existingPaths) →
      ∀ p ∈ (items.foldl (fallbackStep existingPaths fetchFile mods) acc).map Prod.fst,
        strContains (pyLower p) "test" = false ∧ p ∉ existingPaths := by
  intro items
  induction items with
  | nil => intro acc hacc p hp; exact hacc p hp
  | cons q t ih =>
    intro acc hacc p hp
    refine ih (fallbackStep existingPaths fetchFile mods acc q) ?_ p hp
    intro x hx
    unfold fallbackStep at hx
    split_ifs at hx with h1 h2 h3
    · exact hacc x hx
    · exact hacc x hx
    · exact hacc x hx
    · revert hx
      cases tryModules fetchFile q mods with
      | none => exact fun hx => hacc x hx
      | some c =>
        intro hx
        simp only [List.map_append, List.map_cons, List.map_nil, List.mem_append,
          List.mem_singleton] at hx
        rcases hx with hx | rfl
        · exact hacc x hx
        · refine ⟨?_, fun hmem => h1 (Or.inl hmem)⟩
          rcases Bool.eq_false_or_eq_true (strContains (pyLower x) "test") with hb | hb
          · exact absurd hb h2
          · exact hb

/-- C7: whichever path resolution takes (branch listing or changed-files
fallback), the returned file set never contains a path containing "test"
(case-insensitively) and never a path already present among the fetched
files. -/
theorem claim_C7_resolution_exclusions :
    ∀ (srcPRInfo : Except String Unit) (tree : Except String (List String))
      (fetchFile : String → Option String) (changed : Except String (List String))
      (imported_modules : List String) (existing_files : List (String × String))
      (fs : List (String × String)),
      fetch_source_files_from_imports srcPRInfo tree fetchFile changed
        imported_modules existing_files = .ok fs →
      ∀ p ∈ fs.map Prod.fst,
        strContains (pyLower p) "test" = false ∧
          p ∉ existing_files.map Prod.fst := by
  intro s tr f ch im ex fs h p hp
  unfold fetch_source_files_from_imports at h
  split_ifs at h with h1
  · cases h; simp at hp
  · revert h
    cases s with
    | error e => intro h; cases h
    | ok _ =>
      intro h
      dsimp only at h
      split_ifs at h with h3
      · cases h; simp at hp
      · revert h
        cases tr with
        | ok t =>
          intro h
          dsimp only at h
          cases h
          exact branch_foldl_excludes (ex.map Prod.fst) f _ t [] (by simp) p hp
        | error _ =>
          intro h
          dsimp only at h
          cases ch with
          | error e => cases h
          | ok cfs =>
            dsimp only at h
            cases h
            exact fallback_foldl_excludes (ex.map Prod.fst) f _ cfs [] (by simp) p hp

/-- Witness for C7: a concrete resolution whose result is nonempty, with
the returned path satisfying both exclusions. -/
theorem claim_C7_resolution_exclusions_witness :
    strContains (pyLower "app/a.py") "test" = false ∧
      "app/a.py" ∉ ([("other.py", "x")] : List (String × String)).map Prod.fst := by
  refine claim_C7_resolution_exclusions (.ok ()) (.ok ["app/a.py"])
    (fun _ => some "c") (.ok []) ["app"] [("other.py", "x")]
    [("app/a.py", "c")] (by rfl) "app/a.py" (by decide)

/-- The branch fold never produces a duplicate path, and produces only
paths of the listing. -/
theorem branch_foldl_nodup_sub (existingPaths : List String)
    (fetchFile : String → Option String) (mods : List String) :
    ∀ (items : List String) (acc : List (String × String)),
      (acc.map Prod.fst).Nodup →
      ((items.foldl (branchStep existingPaths fetchFile mods) acc).map Prod.fst).Nodup ∧
      (∀ p ∈ (items.foldl (branchStep existingPaths fetchFile mods) acc).map Prod.fst,
        p ∈ acc.map Prod.fst ∨ p ∈ items) := by
  intro items
  induction items with
  | nil => intro acc hacc; exact ⟨hacc, fun p hp => Or.inl hp⟩
  | cons q t ih =>
    intro acc hacc
    have hstep : ((branchStep existingPaths fetchFile mods acc q).map Prod.fst).Nodup ∧
        ∀ p ∈ (branchStep existingPaths fetchFile mods acc q).map Prod.fst,
          p ∈ acc.map Prod.fst ∨ p = q := by
      unfold branchStep
      split_ifs with h1 h2 h3
      · exact ⟨hacc, fun p hp => Or.inl hp⟩
      · exact ⟨hacc, fun p hp => Or.inl hp⟩
      · exact ⟨hacc, fun p hp => Or.inl hp⟩
      · cases tryModules fetchFile q mods with
        | none => exact ⟨hacc, fun p hp => Or.inl hp⟩
        | some c =>
          have hq : q ∉ acc.map Prod.fst := fun hmem => h1 (Or.inr hmem)
          constructor
          · simp only [List.map_append, List.map_cons, List.map_nil]
            rw [List.nodup_append]
            exact ⟨hacc, List.nodup_singleton q,
              fun a ha hb => hq (List.mem_singleton.mp hb ▸ ha)⟩
          · intro p hp
            simp only [List.map_append, List.map_cons, List.map_nil,
              List.mem_append, List.mem_singleton] at hp
            exact hp
    obtain ⟨hn, hs⟩ := ih (branchStep existingPaths fetchFile mods acc q) hstep.1
    refine ⟨hn, fun p hp => ?_⟩
    rcases hs p hp with hin | hin
    · rcases hstep.2 p hin with hin2 | rfl
      · exact Or.inl hin2
      · exact Or.inr (List.mem_cons_self p t)
    · exact Or.inr (List.mem_cons_of_mem q hin)

/-- Counterexample to C3 as stated: with the single imported module
`app`, the branch listing `["app/a.py", "app/b.py"]` causes TWO files to
be fetched for that one module — the `break` only stops the inner module
scan for the current file, it does not stop the file scan for a matched
module. -/
theorem claim_C3_per_module_stop_counterexample :
    fetch_branch_files ["app/a.py", "app/b.py"] [] (fun _ => some "") ["app"] =
        [("app/a.py", ""), ("app/b.py", "")] ∧
      matchesModule "app/a.py" "app" = true ∧
      matchesModule "app/b.py" "app" = true := by
  refine ⟨by decide, by decide, by decide⟩

/-- C3 (amended): for a given file of the branch listing, scanning of
the module set stops at the first matching module whose fetch succeeds,
so each listed file is fetched at most once — the result paths are
duplicate-free and drawn from the listing; the resolver may however
fetch several files for the same module. -/
theorem claim_C3_per_file_stop_amended :
    ∀ (tree existingPaths : List String) (fetchFile : String → Option String)
      (mods : List String),
      ((fetch_branch_files tree existingPaths fetchFile mods).map Prod.fst).Nodup ∧
      (∀ p ∈ (fetch_branch_files tree existingPaths fetchFile mods).map Prod.fst,
        p ∈ tree) := by
  intro tree existingPaths fetchFile mods
  obtain ⟨hn, hs⟩ :=
    branch_foldl_nodup_sub existingPaths fetchFile mods tree [] (by simp)
  refine ⟨hn, fun p hp => ?_⟩
  rcases hs p hp with hin | hin
  · simp at hin
  · exact hin

/-- Witness for C3 (amended) at the counterexample input. -/
theorem claim_C3_per_file_stop_witness :
    ((fetch_branch_files ["app/a.py", "app/b.py"] [] (fun _ => some "")
        ["app"]).map Prod.fst).Nodup ∧
      "app/a.py" ∈ (["app/a.py", "app/b.py"] : List String) := by
  obtain ⟨hn, hs⟩ := claim_C3_per_file_stop_amended ["app/a.py", "app/b.py"] []
    (fun _ => some "") ["app"]
  exact ⟨hn, hs "app/a.py" (by decide)⟩

/-! ## Claim C4 — command quoting round-trip -/

theorem escapeCmd_cons (c : Char) (cs : List Char) :
    escapeCmd (c :: cs) =
      (if c = '\'' then ['\'', '"', '\'', '"', '\''] else [c]) ++ escapeCmd cs := rfl

theorem pyS_quote (t : List Char) :
    pyLitParse .inS ('\'' :: t) = pyLitParse .outside t := by
  simp [pyLitParse]

theorem pyS_char (c : Char) (t : List Char) (h1 : c ≠ '\'') (h2 : c ≠ '\\')
    (h3 : ¬(c = '\n' ∨ c = '\r')) :
    pyLitParse .inS (c :: t) = (pyLitParse .inS t).map (fun l => c :: l) := by
  simp [pyLitParse, h1, h2, h3]

theorem pyO_quote (t : List Char) :
    pyLitParse .outside ('\'' :: t) = pyLitParse .inS t := by
  simp [pyLitParse]

theorem pyO_dquote (t : List Char) :
    pyLitParse .outside ('"' :: t) = pyLitParse .inD t := by
  simp [pyLitParse]

theorem pyD_dquote (t : List Char) :
    pyLitParse .inD ('"' :: t) = pyLitParse .outside t := by
  simp [pyLitParse]

theorem pyD_char (c : Char) (t : List Char) (h1 : c ≠ '"') (h2 : c ≠ '\\')
    (h3 : ¬(c = '\n' ∨ c = '\r')) :
    pyLitParse .inD (c :: t) = (pyLitParse .inD t).map (fun l => c :: l) := by
  simp [pyLitParse, h1, h2, h3]

/-- A command character that survives the splice: not a backslash and
not a line-ending character. -/
def shellSafeChar (c : Char) : Bool := !(c == '\\' || c == '\n' || c == '\r')

theorem pyLitParse_inS_escape (cmd : List Char)
    (h : cmd.all shellSafeChar = true) :
    pyLitParse .inS (escapeCmd cmd ++ ['\'']) = some cmd := by
  induction cmd with
  | nil => decide
  | cons c cs ih =>
    rw [List.all_cons, Bool.and_eq_true] at h
    obtain ⟨hc, hcs⟩ := h
    have hbs : c ≠ '\\' := by
      intro hq; rw [hq] at hc; simp [shellSafeChar] at hc
    have hnl : ¬(c = '\n' ∨ c = '\r') := by
      rintro (hq | hq) <;> rw [hq] at hc <;> simp [shellSafeChar] at hc
    rw [escapeCmd_cons]
    by_cases hq : c = '\''
    · subst hq
      rw [show (if ('\'' : Char) = '\'' then (['\'', '"', '\'', '"', '\''] : List Char)
            else ['\'']) = ['\'', '"', '\'', '"', '\''] from rfl]
      simp only [List.cons_append, List.nil_append, List.append_assoc]
      rw [pyS_quote, pyO_dquote,
        pyD_char '\'' _ (by decide) (by decide) (by decide),
        pyD_dquote, pyO_quote, ih hcs]
      rfl
    · simp only [if_neg hq, List.cons_append, List.nil_append]
      rw [pyS_char c _ hq hbs hnl, ih hcs]
      rfl

/-- C4 (amended): for every command string containing no backslash and
no line-ending character — in particular for every command with embedded
single or double quotes — the quoted command spliced into the execution
snippet parses back to the exact original command, so the command that
runs equals the command given. -/
theorem claim_C4_quoting_amended :
    ∀ cmd : List Char, cmd.all shellSafeChar = true →
      commandThatRuns cmd = some cmd := by
  intro cmd h
  unfold commandThatRuns quotedCommandFragment
  rw [pyO_quote]
  exact pyLitParse_inS_escape cmd h

/-- Witness for C4 (amended): a command with both embedded single and
double quotes round-trips exactly. -/
theorem claim_C4_quoting_witness :
    commandThatRuns ('p' :: 'y' :: 't' :: 'e' :: 's' :: 't' :: ' ' :: '-' :: 'k' ::
        ' ' :: '\'' :: 'a' :: ' ' :: '"' :: 'b' :: '"' :: '\'' :: []) =
      some ('p' :: 'y' :: 't' :: 'e' :: 's' :: 't' :: ' ' :: '-' :: 'k' ::
        ' ' :: '\'' :: 'a' :: ' ' :: '"' :: 'b' :: '"' :: '\'' :: []) :=
  claim_C4_quoting_amended _ (by decide)

/-- Counterexample to C4 as stated: the command `echo a\nb` (with a
literal backslash-n) is spliced into the snippet unescaped, and Python
literal semantics turns `\n` into a newline — the command that runs is
not the command given. -/
theorem claim_C4_quoting_counterexample :
    commandThatRuns
        ('e' :: 'c' :: 'h' :: 'o' :: ' ' :: 'a' :: '\\' :: 'n' :: 'b' :: []) =
      some ('e' :: 'c' :: 'h' :: 'o' :: ' ' :: 'a' :: '\n' :: 'b' :: []) ∧
    ('e' :: 'c' :: 'h' :: 'o' :: ' ' :: 'a' :: '\n' :: 'b' :: ([] : List Char)) ≠
      ('e' :: 'c' :: 'h' :: 'o' :: ' ' :: 'a' :: '\\' :: 'n' :: 'b' :: []) := by
  constructor <;> decide

/-! ## Claim C8 — sandbox disposal is best-effort and total -/

/-- C8: `cleanup` swallows every teardown failure and returns normally,
and on every exit path of the Daytona stage on which sandbox
provisioning succeeded — including failures of materialization,
dependency installation and test execution — the `finally` block invokes
cleanup. -/
theorem claim_C8_dispose_best_effort_total :
    (∀ d : Except String Unit, cleanup d = .ok ()) ∧
    (∀ env : DaytonaEnv, "create_sandbox_ok" ∈ (run_tests_in_daytona env).2 →
      "cleanup" ∈ (run_tests_in_daytona env).2) := by
  constructor
  · intro d; cases d <;> rfl
  · intro env
    rcases env with ⟨pc, pt, ap, spi, tr, ff, ch, cs, se, idp, rt, ds⟩
    unfold run_tests_in_daytona
    cases pc with
    | error e => intro h; simp at h
    | ok code0 =>
      cases pt with
      | error e => intro h; simp at h
      | ok tf =>
        dsimp only
        split
        · intro h; simp at h
        · split
          · intro h; simp at h
          · cases cs with
            | error e => intro h; simp at h
            | ok u =>
              dsimp only
              split
              · intro _; simp
              · intro _; simp

/-- Witness for C8: with provisioning succeeded and dependency
installation failing, cleanup is still invoked, and cleanup run against
a failing delete still returns normally. -/
theorem claim_C8_dispose_witness :
    cleanup (.error "delete failed") = .ok () ∧
    "cleanup" ∈ (run_tests_in_daytona
      { prepareCode := .ok [], prepareTests := .ok [("test_a.py", "x")],
        astParse := fun _ => none, srcPRInfo := .ok (), tree := .ok [],
        fetchFile := fun _ => none, changed := .ok [],
        createSandbox := .ok (), setupEnv := .ok (),
        installDeps := .error "pip failed", runTests := fun _ => .error "unused",
        deleteSandbox := .error "delete failed" }).2 := by
  refine ⟨claim_C8_dispose_best_effort_total.1 (.error "delete failed"),
    claim_C8_dispose_best_effort_total.2 _ (by decide)⟩

/-! ## Claim C1 — risk is nonzero only after the scorer completed -/

/-- C1: the batch produces exactly one entry per PR (a failing PR never
crashes the batch); a PR whose processing raises yields the error entry
with risk 0; and whenever an entry carries a nonzero risk, the scoring
stage completed: scoring was not skipped, the stages before it
succeeded, the PR files were fetched, and the recorded risk is exactly
the risk of the analyzer's response on the actual stage inputs. -/
theorem claim_C1_risk_only_after_scorer :
    ∀ (prs : List PRSummary) (envOf : Int → PREnv) (skip_tests skip_gpt : Bool),
      (main_batch_loop prs envOf skip_tests skip_gpt).length = prs.length ∧
      (∀ pr ∈ prs, ∀ e,
        process_pr (envOf pr.number) pr.number skip_tests skip_gpt = .error e →
        error_entry pr e ∈ main_batch_loop prs envOf skip_tests skip_gpt ∧
          (error_entry pr e).risk = 0) ∧
      (∀ pr ∈ prs, ∀ r,
        process_pr (envOf pr.number) pr.number skip_tests skip_gpt = .ok r →
        r.risk ≠ 0 →
        skip_gpt = false ∧
        ∃ info reviews files,
          pr_stage_reviews (envOf pr.number) = .ok (info, reviews) ∧
          (envOf pr.number).getPRFiles = .ok files ∧
          r.risk = (analyze_pr (envOf pr.number).llm (envOf pr.number).parseJson
            info reviews
            (pr_stage_tests (envOf pr.number) skip_tests).testResults
            files).risk) := by
  intro prs envOf skipT skipG
  refine ⟨by simp [main_batch_loop], ?_, ?_⟩
  · intro pr hpr e he
    refine ⟨?_, rfl⟩
    unfold main_batch_loop
    have hmem := List.mem_map_of_mem
      (fun pr : PRSummary =>
        match process_pr (envOf pr.number) pr.number skipT skipG with
        | .ok r => r
        | .error e => error_entry pr e) hpr
    dsimp only at hmem
    rw [he] at hmem
    exact hmem
  · intro pr hpr r hok hr
    unfold process_pr at hok
    revert hok
    cases hrev : pr_stage_reviews (envOf pr.number) with
    | error e => intro hok; cases hok
    | ok pair =>
      obtain ⟨info, reviews⟩ := pair
      intro hok
      dsimp only at hok
      injection hok with hok
      subst hok
      have hr' : (pr_stage_gpt (envOf pr.number) skipG info reviews
          (pr_stage_tests (envOf pr.number) skipT).testResults).risk ≠ 0 := hr
      cases skipG with
      | true => simp [pr_stage_gpt] at hr'
      | false =>
        refine ⟨rfl, info, reviews, ?_⟩
        revert hr'
        cases hgf : (envOf pr.number).getPRFiles with
        | error e => intro hr'; simp [pr_stage_gpt, hgf] at hr'
        | ok files =>
          intro _
          exact ⟨files, rfl, rfl, by simp [pr_stage_gpt, hgf]⟩

/-- Witness for C1: a concrete one-PR batch whose scorer returns risk
42; the nonzero risk is certified to come from the completed scoring
stage. -/
theorem claim_C1_risk_only_after_scorer_witness :
    ∃ info reviews files,
      pr_stage_reviews (pipelineWitnessEnv 1) = .ok (info, reviews) ∧
      (pipelineWitnessEnv 1).getPRFiles = .ok files ∧
      ({ id := 1, title := "T", link := "L", risk := 42, coderabbitReviews := [],
         generatedTests := [], testResults := none, testError := none,
         gptError := none, error := none } : PipelineResult).risk =
        (analyze_pr (pipelineWitnessEnv 1).llm (pipelineWitnessEnv 1).parseJson
          info reviews
          (pr_stage_tests (pipelineWitnessEnv 1) true).testResults files).risk := by
  have h := (claim_C1_risk_only_after_scorer [⟨1, "T", "L"⟩] pipelineWitnessEnv
    true false).2.2 ⟨1, "T", "L"⟩ (by decide)
    { id := 1, title := "T", link := "L", risk := 42, coderabbitReviews := [],
      generatedTests := [], testResults := none, testError := none,
      gptError := none, error := none } (by rfl) (by decide)
  exact h.2

end ShipSure
